import Mathlib

/-! # CSS selector builder and rectangle (`src/05-objects-tasks.js`)

A shallow embedding of the object `cssSelectorBuilder` and of its methods
`isError`, `addText`, `stringify`, `element`, `id`, `class`, `attr`,
`pseudoClass`, `pseudoElement` and `combine`.

* An object with the fields `selector`, `elem`, `aidi`, `pseudo`, `position`
  is a value of the structure `Selector`; the numeric fields are integers.
* A method takes its receiver `this` as first argument.
* `throw new Error(msg)` is `Except.error e` where `e : SelectorError`
  stands for one of the two messages of the source.
-/

/-- The two `Error`s thrown by the builder, told apart by their message. -/
inductive SelectorError where
  /-- Thrown by `isError`. -/
  | OrderError
  /-- Thrown by the `switch` of `addText`. -/
  | DuplicateSingletonError
  deriving DecidableEq, Repr

namespace SelectorError

/-- The message carried by the thrown `Error`. -/
def message : SelectorError → String
  | OrderError =>
    "Selector parts should be arranged in the following order: element, id, class, attribute, pseudo-class, pseudo-element"
  | DuplicateSingletonError =>
    "Element, id and pseudo-element should not occur more then one time inside the selector"

end SelectorError

/-- The fields of the object `cssSelectorBuilder` and of every copy of it. -/
structure Selector where
  selector : String
  elem : Int
  aidi : Int
  pseudo : Int
  position : Int
  deriving DecidableEq, Repr

/-- The object literal `cssSelectorBuilder`: the empty builder. -/
def cssSelectorBuilder : Selector :=
  { selector := "", elem := 0, aidi := 0, pseudo := 0, position := 0 }

namespace Selector

/-- Method `isError(nowPos)`: throws when `this.position > nowPos`. -/
def isError (this : Selector) (nowPos : Int) : Except SelectorError Unit :=
  if this.position > nowPos then
    Except.error SelectorError.OrderError
  else
    Except.ok ()

/-- Method `addText(value, mark)`. -/
def addText (this : Selector) (value : String) (mark : Int) :
    Except SelectorError Selector :=
  -- const select = { ...this };
  let select := this
  -- this.isError(mark);
  match this.isError mark with
  | Except.error e => Except.error e
  | Except.ok () =>
    -- select.position = mark;
    let select := { select with position := mark }
    -- switch (mark) { case 1: ... case 2: ... case 6: ... default: break; }
    let switched : Except SelectorError Selector :=
      if mark = 1 then
        if select.elem > 0 then Except.error SelectorError.DuplicateSingletonError
        else Except.ok { select with elem := 1 }
      else if mark = 2 then
        if select.aidi > 0 then Except.error SelectorError.DuplicateSingletonError
        else Except.ok { select with aidi := 1 }
      else if mark = 6 then
        if select.pseudo > 0 then Except.error SelectorError.DuplicateSingletonError
        else Except.ok { select with pseudo := 1 }
      else Except.ok select
    match switched with
    | Except.error e => Except.error e
    | Except.ok select =>
      -- select.selector = this.selector + value; return select;
      Except.ok { select with selector := this.selector ++ value }

/-- Method `stringify()`. -/
def stringify (this : Selector) : String :=
  this.selector

/-- Method `element(value)`. -/
def element (this : Selector) (value : String) : Except SelectorError Selector :=
  this.addText value 1

/-- Method `id(value)`. -/
def id (this : Selector) (value : String) : Except SelectorError Selector :=
  this.addText ("#" ++ value) 2

/-- Method `class(value)`. -/
def «class» (this : Selector) (value : String) : Except SelectorError Selector :=
  this.addText ("." ++ value) 3

/-- Method `attr(value)`. -/
def attr (this : Selector) (value : String) : Except SelectorError Selector :=
  this.addText ("[" ++ value ++ "]") 4

/-- Method `pseudoClass(value)`. -/
def pseudoClass (this : Selector) (value : String) : Except SelectorError Selector :=
  this.addText (":" ++ value) 5

/-- Method `pseudoElement(value)`. -/
def pseudoElement (this : Selector) (value : String) : Except SelectorError Selector :=
  this.addText ("::" ++ value) 6

/-- Method `combine(selector1, combinator, selector2)`: a copy of the receiver
whose `selector` is the template string of the source. -/
def combine (this : Selector) (selector1 : Selector) (combinator : String)
    (selector2 : Selector) : Selector :=
  -- const select = { ...this };
  let select := this
  -- select.selector = `${selector1.selector} ${combinator} ${selector2.selector}`;
  { select with
    selector := selector1.selector ++ " " ++ combinator ++ " " ++ selector2.selector }

end Selector

/-- The six part constructors of the builder. -/
inductive Kind where
  | element | id | «class» | attr | pseudoClass | pseudoElement
  deriving DecidableEq, Repr

namespace Kind

/-- The `mark` a part constructor passes to `addText`. -/
def rank : Kind → Int
  | element => 1
  | id => 2
  | «class» => 3
  | attr => 4
  | pseudoClass => 5
  | pseudoElement => 6

/-- The text a part constructor passes to `addText`. -/
def render : Kind → String → String
  | element, value => value
  | id, value => "#" ++ value
  | «class», value => "." ++ value
  | attr, value => "[" ++ value ++ "]"
  | pseudoClass, value => ":" ++ value
  | pseudoElement, value => "::" ++ value

/-- Calls the method named by the kind on the receiver. -/
def call : Kind → Selector → String → Except SelectorError Selector
  | element, this, value => this.element value
  | id, this, value => this.id value
  | «class», this, value => this.«class» value
  | attr, this, value => this.attr value
  | pseudoClass, this, value => this.pseudoClass value
  | pseudoElement, this, value => this.pseudoElement value

/-- The kinds guarded by a flag in the `switch` of `addText`. -/
def isSingleton : Kind → Bool
  | element => true
  | id => true
  | pseudoElement => true
  | _ => false

/-- The flag field the `switch` of `addText` reads for a kind (`0` for a kind
without a case). -/
def flag : Kind → Selector → Int
  | element, v => v.elem
  | id, v => v.aidi
  | pseudoElement, v => v.pseudo
  | _, _ => 0

end Kind

/-- A chain of part-constructor calls `v.k₁(x₁).k₂(x₂)...`: it stops at the
first call that throws. -/
def chain (v : Selector) : List (Kind × String) → Except SelectorError Selector
  | [] => Except.ok v
  | (k, x) :: rest =>
    match k.call v x with
    | Except.error e => Except.error e
    | Except.ok w => chain w rest

/-- The rendered parts of a chain, concatenated in call order. -/
def renderAll : List (Kind × String) → String
  | [] => ""
  | (k, x) :: rest => k.render x ++ renderAll rest

/-- The value a successful part-constructor call of kind `k` returns: the
fields `addText` has assigned to its copy of the receiver. -/
def appended (k : Kind) (v : Selector) (x : String) : Selector :=
  { selector := v.selector ++ k.render x
    elem := if k = Kind.element then 1 else v.elem
    aidi := if k = Kind.id then 1 else v.aidi
    pseudo := if k = Kind.pseudoElement then 1 else v.pseudo
    position := k.rank }

/-- The worked example of the documentation comment of `cssSelectorBuilder`:
three nested `combine` calls, then `stringify()`. -/
def nestedExample : Except SelectorError String := do
  let builder := cssSelectorBuilder
  let div ← builder.element "div"
  let div ← div.id "main"
  let div ← div.«class» "container"
  let div ← div.«class» "draggable"
  let table ← builder.element "table"
  let table ← table.id "data"
  let tr ← builder.element "tr"
  let tr ← tr.pseudoClass "nth-of-type(even)"
  let td ← builder.element "td"
  let td ← td.pseudoClass "nth-of-type(even)"
  return (builder.combine div "+"
    (builder.combine table "~" (builder.combine tr " " td))).stringify

/-! ## Objects by reference

The methods once more, on a store of objects: a receiver is an address, the
spread `{ ...this }` allocates a fresh object holding a copy of the fields and
an assignment `select.f = e` writes the object at the address `select`. -/

/-- A store of objects: `cells a` is the object at address `a`, and the
addresses below `next` are the allocated ones. -/
structure Heap where
  cells : Nat → Selector
  next : Nat

namespace Heap

/-- The spread `{ ...o }`: a fresh object with the fields of the object at
`o`; returns the store and the fresh address. -/
def spread (h : Heap) (o : Nat) : Heap × Nat :=
  ({ cells := fun a => if a = h.next then h.cells o else h.cells a
     next := h.next + 1 }, h.next)

/-- An assignment to fields of the object at address `o`. -/
def assign (h : Heap) (o : Nat) (f : Selector → Selector) : Heap :=
  { h with cells := fun a => if a = o then f (h.cells a) else h.cells a }

/-- Method `addText(value, mark)` on the store: returns the store after the
call and either the thrown error or the address of the returned object. -/
def addText (h : Heap) (this : Nat) (value : String) (mark : Int) :
    Heap × Except SelectorError Nat :=
  -- const select = { ...this };
  match h.spread this with
  | (h, select) =>
    -- this.isError(mark);
    match (h.cells this).isError mark with
    | Except.error e => (h, Except.error e)
    | Except.ok () =>
      -- select.position = mark;
      let h := h.assign select (fun o => { o with position := mark })
      -- switch (mark) { case 1: ... case 2: ... case 6: ... default: break; }
      let switched : Heap × Option SelectorError :=
        if mark = 1 then
          if (h.cells select).elem > 0 then
            (h, some SelectorError.DuplicateSingletonError)
          else (h.assign select (fun o => { o with elem := 1 }), none)
        else if mark = 2 then
          if (h.cells select).aidi > 0 then
            (h, some SelectorError.DuplicateSingletonError)
          else (h.assign select (fun o => { o with aidi := 1 }), none)
        else if mark = 6 then
          if (h.cells select).pseudo > 0 then
            (h, some SelectorError.DuplicateSingletonError)
          else (h.assign select (fun o => { o with pseudo := 1 }), none)
        else (h, none)
      match switched with
      | (h, some e) => (h, Except.error e)
      | (h, none) =>
        -- select.selector = this.selector + value; return select;
        let text := (h.cells this).selector ++ value
        (h.assign select (fun o => { o with selector := text }), Except.ok select)

/-- The part constructor of kind `k` called on the object at `this`. -/
def call (k : Kind) (h : Heap) (this : Nat) (value : String) :
    Heap × Except SelectorError Nat :=
  h.addText this (k.render value) k.rank

end Heap

/-- The store after the module is loaded: the object literal
`cssSelectorBuilder` at address `0` and nothing else allocated. -/
def initialHeap : Heap :=
  { cells := fun _ => cssSelectorBuilder, next := 1 }

/-- The values derived from the empty builder, with the kinds of the parts
appended on the way (latest first): a successful part-constructor call on a
derived value, or `combine` called on a derived value with any operands. -/
inductive Derives : List Kind → Selector → Prop where
  | empty : Derives [] cssSelectorBuilder
  | part {ks : List Kind} {v w : Selector} (k : Kind) (x : String) :
      Derives ks v → k.call v x = Except.ok w → Derives (k :: ks) w
  | combine {ks : List Kind} {v : Selector} (left : Selector) (symbol : String)
      (right : Selector) : Derives ks v → Derives ks (v.combine left symbol right)

/-- The condition on a chain of calls: the marks do not decrease and each of
element, id and pseudoElement is called at most once. -/
def WellOrdered (calls : List (Kind × String)) : Prop :=
  (calls.map (fun c => c.1.rank)).Chain' (· ≤ ·) ∧
  (calls.map Prod.fst).count Kind.element ≤ 1 ∧
  (calls.map Prod.fst).count Kind.id ≤ 1 ∧
  (calls.map Prod.fst).count Kind.pseudoElement ≤ 1

/-! ## Rectangle

`width` and `height` are `Number`s, that is binary64 values. The embedding
covers the integer valued ones (`-0` is not told apart from `0`), and the
product of two of them is the exact product rounded to the nearest binary64
value, ties to even. -/

/-- The integers that are binary64 values: a significand of at most 53 binary
digits times a power of two up to `2 ^ 971`. -/
def IsBinary64 (n : Int) : Prop :=
  ∃ m e : Nat, m < 2 ^ 53 ∧ e ≤ 971 ∧ n.natAbs = m * 2 ^ e

/-- An integer valued `Number`. -/
structure Number where
  val : Int
  isBinary64 : IsBinary64 val

/-- The `Number` of an integer of magnitude below `2 ^ 53`. -/
def Number.ofSafe (n : Int) (h : n.natAbs < 2 ^ 53) : Number :=
  { val := n, isBinary64 := ⟨n.natAbs, 0, h, Nat.zero_le _, (Nat.mul_one _).symm⟩ }

/-- The number of binary digits of `a`, by halving at most `fuel` times. -/
def bitLengthAux : Nat → Nat → Nat
  | 0, _ => 0
  | fuel + 1, a => if a = 0 then 0 else bitLengthAux fuel (a / 2) + 1

/-- The number of binary digits of `a` (`a` halvings are enough). -/
def bitLength (a : Nat) : Nat :=
  bitLengthAux a a

/-- A magnitude of more than 53 binary digits rounded to 53 digits, ties to
even: the digits below the 53 leading ones are dropped and the rest is
incremented when they are above the half, or at the half with an odd rest. -/
def roundMagnitude (a : Nat) : Nat :=
  let shift := bitLength a - 53
  let q := a / 2 ^ shift
  let r := a % 2 ^ shift
  let half := 2 ^ (shift - 1)
  (if r > half ∨ (r = half ∧ q % 2 = 1) then q + 1 else q) * 2 ^ shift

/-- The binary64 value nearest to the integer `n`, ties to even: `n` itself
when its magnitude fits the 53 digits of the significand; `none` stands for an
infinity, reached when the rounded magnitude has more than 1024 digits. -/
def roundNumber (n : Int) : Option Int :=
  if bitLength n.natAbs ≤ 53 then some n
  else if bitLength (roundMagnitude n.natAbs) > 1024 then none
  else if n < 0 then some (-(roundMagnitude n.natAbs : Int))
  else some (roundMagnitude n.natAbs : Int)

/-- The operator `*` on two integer valued `Number`s: the integer the result
is, or `none` for an infinity. -/
def mulNumber (x y : Number) : Option Int :=
  roundNumber (x.val * y.val)

/-- The object `new Rectangle(width, height)` builds: the constructor of the
structure is the constructor function of the source. -/
structure Rectangle where
  width : Number
  height : Number

/-- The function `getArea()` the constructor stores in the object. -/
def Rectangle.getArea (this : Rectangle) : Option Int :=
  mulNumber this.width this.height

/-! ## Basic facts on one call -/

/-- Every part constructor is `addText` at the kind's text and mark. -/
theorem call_eq_addText (k : Kind) (v : Selector) (x : String) :
    k.call v x = v.addText (k.render x) k.rank := by
  cases k <;> rfl

/-- A call above the receiver's position throws the order error. -/
theorem call_of_position_gt (k : Kind) (v : Selector) (x : String)
    (h : v.position > k.rank) :
    k.call v x = Except.error SelectorError.OrderError := by
  rw [call_eq_addText]
  simp [Selector.addText, Selector.isError, h]

/-- A singleton kind whose flag is set throws the duplicate error once the
order check has passed. -/
theorem call_of_flag_pos (k : Kind) (v : Selector) (x : String)
    (hp : ¬ v.position > k.rank) (hs : k.isSingleton = true) (hf : k.flag v > 0) :
    k.call v x = Except.error SelectorError.DuplicateSingletonError := by
  rw [call_eq_addText]
  have hi : v.isError k.rank = Except.ok () := by
    unfold Selector.isError
    rw [if_neg hp]
  unfold Selector.addText
  rw [hi]
  cases k <;> simp_all [Kind.rank, Kind.flag, Kind.isSingleton]

/-- A call that passes the order check and finds no set flag of its own kind
returns the appended copy. -/
theorem call_of_ok (k : Kind) (v : Selector) (x : String)
    (hp : ¬ v.position > k.rank) (hf : k.isSingleton = true → ¬ k.flag v > 0) :
    k.call v x = Except.ok (appended k v x) := by
  rw [call_eq_addText]
  have hi : v.isError k.rank = Except.ok () := by
    unfold Selector.isError
    rw [if_neg hp]
  unfold Selector.addText
  rw [hi]
  cases k <;>
    simp_all [Kind.rank, Kind.flag, Kind.isSingleton, appended, Kind.render, -not_lt]

/-- The three outcomes of a call, by the guards of `isError` and `addText`. -/
theorem call_cases (k : Kind) (v : Selector) (x : String) :
    (v.position > k.rank ∧ k.call v x = Except.error SelectorError.OrderError) ∨
    (¬ v.position > k.rank ∧ k.isSingleton = true ∧ k.flag v > 0 ∧
      k.call v x = Except.error SelectorError.DuplicateSingletonError) ∨
    (¬ v.position > k.rank ∧ (k.isSingleton = true → ¬ k.flag v > 0) ∧
      k.call v x = Except.ok (appended k v x)) := by
  by_cases hp : v.position > k.rank
  · exact Or.inl ⟨hp, call_of_position_gt k v x hp⟩
  · by_cases hf : k.isSingleton = true ∧ k.flag v > 0
    · exact Or.inr (Or.inl ⟨hp, hf.1, hf.2, call_of_flag_pos k v x hp hf.1 hf.2⟩)
    · refine Or.inr (Or.inr ⟨hp, fun hs hfl => hf ⟨hs, hfl⟩, call_of_ok k v x hp ?_⟩)
      exact fun hs hfl => hf ⟨hs, hfl⟩

/-- A successful call returns the appended copy, and both guards were passed. -/
theorem call_ok_inv {k : Kind} {v w : Selector} {x : String}
    (h : k.call v x = Except.ok w) :
    w = appended k v x ∧ ¬ v.position > k.rank ∧
      (k.isSingleton = true → ¬ k.flag v > 0) := by
  rcases call_cases k v x with ⟨_, e⟩ | ⟨_, _, _, e⟩ | ⟨hp, hf, e⟩
  · rw [e] at h; cases h
  · rw [e] at h; cases h
  · rw [e] at h
    injection h with h
    exact ⟨h.symm, hp, hf⟩

/-- A successful call of a singleton kind sets the flag of that kind. -/
theorem flag_appended_self (k : Kind) (v : Selector) (x : String)
    (hs : k.isSingleton = true) : k.flag (appended k v x) = 1 := by
  cases k <;> simp_all [Kind.flag, appended, Kind.isSingleton]

/-- A successful call leaves the flags of the other kinds as they were. -/
theorem flag_appended_of_ne (j k : Kind) (v : Selector) (x : String)
    (hne : j ≠ k) : j.flag (appended k v x) = j.flag v := by
  cases j <;> cases k <;> simp_all [Kind.flag, appended]

/-! ## The order check -/

/-- C2: a part-constructor call of kind `k` on a value `v` throws the order
error if and only if the rank of `k` is strictly below the position of `v`; in
particular a call of equal or higher rank never throws it, and
`id('a').element('b')` throws it. -/
theorem order_error_iff_rank_lt :
    (∀ (v : Selector) (k : Kind) (x : String),
      k.call v x = Except.error SelectorError.OrderError ↔ k.rank < v.position) ∧
    (∃ w, cssSelectorBuilder.id "a" = Except.ok w ∧
      w.element "b" = Except.error SelectorError.OrderError) := by
  refine ⟨fun v k x => ⟨fun h => ?_, fun h => call_of_position_gt k v x h⟩,
    ⟨⟨"#a", 0, 1, 0, 2⟩, rfl, rfl⟩⟩
  rcases call_cases k v x with ⟨hp, _⟩ | ⟨_, _, _, e⟩ | ⟨_, _, e⟩
  · exact hp
  · rw [e] at h; cases h
  · rw [e] at h; cases h

/-! ## The singleton check -/

/-- C5: when the last appended part of a value is of a singleton kind `k`
(the value is what a successful call of kind `k` returned), the call of kind
`k` on it throws the duplicate error, not the order error. -/
theorem repeat_singleton_duplicate_error (u v : Selector) (k : Kind) (x y : String)
    (hs : k.isSingleton = true) (h : k.call u x = Except.ok v) :
    k.call v y = Except.error SelectorError.DuplicateSingletonError := by
  obtain ⟨rfl, _, _⟩ := call_ok_inv h
  apply call_of_flag_pos _ _ _ _ hs
  · rw [flag_appended_self k u x hs]
    decide
  · show ¬ (appended k u x).position > k.rank
    simp [appended]

/-- C5 at `element('a').element('b')`. -/
theorem repeat_singleton_duplicate_error_witness :
    Kind.element.isSingleton = true ∧
    Kind.element.call cssSelectorBuilder "a" = Except.ok ⟨"a", 1, 0, 0, 1⟩ ∧
    Kind.element.call ⟨"a", 1, 0, 0, 1⟩ "b" =
      Except.error SelectorError.DuplicateSingletonError :=
  ⟨rfl, rfl, repeat_singleton_duplicate_error cssSelectorBuilder ⟨"a", 1, 0, 0, 1⟩
    Kind.element "a" "b" rfl rfl⟩

/-- C6 as stated fails: after `id('a').pseudoElement('b')` the call
`element('c')` throws the order error, which is not the duplicate error. -/
theorem id_pseudoElement_element_not_duplicate :
    ∃ v w, cssSelectorBuilder.id "a" = Except.ok v ∧
      v.pseudoElement "b" = Except.ok w ∧
      w.element "c" = Except.error SelectorError.OrderError ∧
      w.element "c" ≠ Except.error SelectorError.DuplicateSingletonError :=
  ⟨⟨"#a", 0, 1, 0, 2⟩, ⟨"#a::b", 0, 1, 1, 6⟩, rfl, rfl, rfl, by
    intro h
    have e : (⟨"#a::b", 0, 1, 1, 6⟩ : Selector).element "c" =
        Except.error SelectorError.OrderError := rfl
    rw [e] at h
    cases h⟩

/-- C6, amended: for all values `a`, `b`, `c`, both `id(a)` on the empty
builder and `pseudoElement(b)` on its result succeed, and the further call
`element(c)` throws the order error. -/
theorem id_pseudoElement_element_order_error (a b c : String) :
    ∃ v w, cssSelectorBuilder.id a = Except.ok v ∧
      v.pseudoElement b = Except.ok w ∧
      w.element c = Except.error SelectorError.OrderError :=
  ⟨⟨"" ++ ("#" ++ a), 0, 1, 0, 2⟩, ⟨"" ++ ("#" ++ a) ++ ("::" ++ b), 0, 1, 1, 6⟩,
    rfl, rfl, rfl⟩

/-- C7: a call of kind class, attr or pseudoClass never throws the duplicate
error, and it succeeds, appending its rendered part, whenever the position of
the receiver is at most the rank of the kind. -/
theorem repeatable_kinds_never_duplicate (v : Selector) (k : Kind) (x : String)
    (hk : k = Kind.«class» ∨ k = Kind.attr ∨ k = Kind.pseudoClass) :
    k.call v x ≠ Except.error SelectorError.DuplicateSingletonError ∧
    (v.position ≤ k.rank →
      ∃ w, k.call v x = Except.ok w ∧ w.stringify = v.stringify ++ k.render x) := by
  have hs : ¬ k.isSingleton = true := by
    rcases hk with rfl | rfl | rfl <;> simp [Kind.isSingleton]
  constructor
  · intro h
    rcases call_cases k v x with ⟨_, e⟩ | ⟨_, hs', _⟩ | ⟨_, _, e⟩
    · rw [e] at h; cases h
    · exact hs hs'
    · rw [e] at h; cases h
  · intro hle
    exact ⟨appended k v x,
      call_of_ok k v x (not_lt.mpr hle) (fun hs' => absurd hs' hs), rfl⟩

/-- C7 at `class('x').class('y')`, which stringifies to `.x.y`. -/
theorem repeatable_kinds_never_duplicate_witness :
    (Kind.«class» = Kind.«class» ∨ Kind.«class» = Kind.attr ∨
      Kind.«class» = Kind.pseudoClass) ∧
    cssSelectorBuilder.«class» "x" = Except.ok ⟨".x", 0, 0, 0, 3⟩ ∧
    Kind.«class».call ⟨".x", 0, 0, 0, 3⟩ "y" ≠
      Except.error SelectorError.DuplicateSingletonError ∧
    ((⟨".x", 0, 0, 0, 3⟩ : Selector).position ≤ Kind.«class».rank) ∧
    ∃ w, Kind.«class».call ⟨".x", 0, 0, 0, 3⟩ "y" = Except.ok w ∧
      w.stringify = ".x" ++ ".y" :=
  ⟨Or.inl rfl, rfl,
    (repeatable_kinds_never_duplicate ⟨".x", 0, 0, 0, 3⟩ Kind.«class» "y" (Or.inl rfl)).1,
    by decide,
    (repeatable_kinds_never_duplicate ⟨".x", 0, 0, 0, 3⟩ Kind.«class» "y" (Or.inl rfl)).2
      (by decide)⟩

/-! ## Combination -/

/-- C8: `combine` throws nothing and, for every receiver, every two operands
and every string symbol, its result stringifies to the text of the left
operand, one space, the symbol, one space, the text of the right operand; so
`combine(element('div'), '+', id('main'))` stringifies to `div + #main`. -/
theorem combine_stringify :
    (∀ (this left right : Selector) (symbol : String),
      (this.combine left symbol right).stringify =
        left.stringify ++ " " ++ symbol ++ " " ++ right.stringify) ∧
    (∃ l r, cssSelectorBuilder.element "div" = Except.ok l ∧
      cssSelectorBuilder.id "main" = Except.ok r ∧
      (cssSelectorBuilder.combine l "+" r).stringify = "div + #main") :=
  ⟨fun _ _ _ _ => rfl, ⟨⟨"div", 1, 0, 0, 1⟩, ⟨"#main", 0, 1, 0, 2⟩, rfl, rfl, by decide⟩⟩

/-- C9: the nested worked example of the documentation stringifies to the
documented text, with three spaces between the `tr` and `td` parts, and in
general `combine(a, s, combine(b, t, c))` stringifies to the five texts and
symbols joined by single spaces. -/
theorem nested_combine_stringify :
    nestedExample = Except.ok
      "div#main.container.draggable + table#data ~ tr:nth-of-type(even)   td:nth-of-type(even)" ∧
    (∀ (this that a b c : Selector) (s t : String),
      (this.combine a s (that.combine b t c)).stringify =
        a.stringify ++ " " ++ s ++ " " ++ b.stringify ++ " " ++ t ++ " " ++ c.stringify) := by
  refine ⟨rfl, fun this that a b c s t => ?_⟩
  simp [Selector.combine, Selector.stringify, String.append_assoc]

/-! ## Chains of calls -/

/-- Along a successful chain the flag of a singleton kind is set at the end
exactly when it was set at the start or a part of that kind was appended. -/
theorem flag_chain_iff (k : Kind) (hs : k.isSingleton = true)
    (calls : List (Kind × String)) :
    ∀ u v : Selector, chain u calls = Except.ok v →
      (k.flag v > 0 ↔ k.flag u > 0 ∨ k ∈ calls.map Prod.fst) := by
  induction calls with
  | nil =>
    intro u v h
    simp only [chain] at h
    injection h with h
    subst h
    simp
  | cons c rest ih =>
    obtain ⟨j, x⟩ := c
    intro u v h
    simp only [chain] at h
    cases hc : j.call u x with
    | error e => rw [hc] at h; cases h
    | ok w =>
      rw [hc] at h
      obtain ⟨rfl, _, _⟩ := call_ok_inv hc
      rw [ih _ _ h]
      by_cases hjk : k = j
      · subst hjk
        rw [flag_appended_self k u x hs]
        simp
      · rw [flag_appended_of_ne k j u x hjk]
        simp [hjk]

/-- A chain whose ranks do not decrease, starting at or above the position of
the receiver, and whose singleton kinds are fresh and occur at most once,
succeeds and appends the rendered parts in call order. -/
theorem chain_ok_of_valid (calls : List (Kind × String)) :
    ∀ v : Selector,
      (calls.map (fun c => c.1.rank)).Pairwise (· ≤ ·) →
      (∀ c ∈ calls, v.position ≤ c.1.rank) →
      (∀ k : Kind, k.isSingleton = true → k ∈ calls.map Prod.fst → ¬ k.flag v > 0) →
      (∀ k : Kind, k.isSingleton = true → (calls.map Prod.fst).count k ≤ 1) →
      ∃ w, chain v calls = Except.ok w ∧ w.selector = v.selector ++ renderAll calls := by
  induction calls with
  | nil =>
    intro v _ _ _ _
    exact ⟨v, rfl, by simp [renderAll]⟩
  | cons c rest ih =>
    obtain ⟨k, x⟩ := c
    intro v hsorted hpos hflag hcount
    have hcall : k.call v x = Except.ok (appended k v x) :=
      call_of_ok k v x (not_lt.mpr (hpos (k, x) (List.mem_cons_self _ _)))
        (fun hs => hflag k hs (by simp))
    rw [List.map_cons, List.pairwise_cons] at hsorted
    have hrest : ∃ w, chain (appended k v x) rest = Except.ok w ∧
        w.selector = (appended k v x).selector ++ renderAll rest := by
      apply ih (appended k v x) hsorted.2
      · intro c hc
        exact hsorted.1 _ (List.mem_map_of_mem _ hc)
      · intro j hj hmem
        by_cases hjk : j = k
        · subst hjk
          have hc := hcount j hj
          have hpos : 0 < (rest.map Prod.fst).count j := List.count_pos_iff.mpr hmem
          simp [List.count_cons] at hc
          omega
        · rw [flag_appended_of_ne j k v x hjk]
          exact hflag j hj (by simp [hmem])
      · intro j hj
        have hc := hcount j hj
        simp only [List.map_cons, List.count_cons] at hc
        omega
    obtain ⟨w, hw, htext⟩ := hrest
    refine ⟨w, ?_, ?_⟩
    · simp only [chain, hcall]
      exact hw
    · rw [htext]
      simp [appended, renderAll, String.append_assoc]

/-- C1: a chain of part-constructor calls from the empty builder whose ranks
are non-decreasing and in which element, id and pseudoElement each occur at
most once succeeds at every call, and the final value stringifies to the
rendered parts concatenated in call order. -/
theorem valid_chain_succeeds (calls : List (Kind × String))
    (hrank : (calls.map (fun c => c.1.rank)).Chain' (· ≤ ·))
    (helem : (calls.map Prod.fst).count Kind.element ≤ 1)
    (hid : (calls.map Prod.fst).count Kind.id ≤ 1)
    (hpseudo : (calls.map Prod.fst).count Kind.pseudoElement ≤ 1) :
    ∃ v, chain cssSelectorBuilder calls = Except.ok v ∧
      v.stringify = renderAll calls := by
  have hpair : (calls.map (fun c => c.1.rank)).Pairwise (· ≤ ·) :=
    List.chain'_iff_pairwise.mp hrank
  obtain ⟨w, hw, htext⟩ := chain_ok_of_valid calls cssSelectorBuilder hpair
    (fun c _ => by cases c.1 <;> simp [cssSelectorBuilder, Kind.rank])
    (fun k _ _ => by cases k <;> simp [cssSelectorBuilder, Kind.flag])
    (fun k hs => by cases k <;> simp_all [Kind.isSingleton])
  refine ⟨w, hw, ?_⟩
  rw [Selector.stringify, htext]
  simp [cssSelectorBuilder]

/-- C1 at the two chains of the documentation:
`id('main').class('container').class('editable')` gives
`#main.container.editable` and
`element('a').attr('href$=".png"').pseudoClass('focus')` gives
`a[href$=".png"]:focus`. -/
theorem valid_chain_succeeds_witness :
    (([(Kind.id, "main"), (Kind.«class», "container"), (Kind.«class», "editable")].map
      (fun c => c.1.rank)).Chain' (· ≤ ·) ∧
    ([(Kind.id, "main"), (Kind.«class», "container"), (Kind.«class», "editable")].map
      Prod.fst).count Kind.element ≤ 1 ∧
    ([(Kind.id, "main"), (Kind.«class», "container"), (Kind.«class», "editable")].map
      Prod.fst).count Kind.id ≤ 1 ∧
    ([(Kind.id, "main"), (Kind.«class», "container"), (Kind.«class», "editable")].map
      Prod.fst).count Kind.pseudoElement ≤ 1 ∧
    renderAll [(Kind.id, "main"), (Kind.«class», "container"), (Kind.«class», "editable")]
      = "#main.container.editable" ∧
    ∃ v, chain cssSelectorBuilder
        [(Kind.id, "main"), (Kind.«class», "container"), (Kind.«class», "editable")]
        = Except.ok v ∧
      v.stringify =
        renderAll [(Kind.id, "main"), (Kind.«class», "container"), (Kind.«class», "editable")]) ∧
    (renderAll [(Kind.element, "a"), (Kind.attr, "href$=\".png\""), (Kind.pseudoClass, "focus")]
      = "a[href$=\".png\"]:focus" ∧
    ∃ v, chain cssSelectorBuilder
        [(Kind.element, "a"), (Kind.attr, "href$=\".png\""), (Kind.pseudoClass, "focus")]
        = Except.ok v ∧
      v.stringify =
        renderAll [(Kind.element, "a"), (Kind.attr, "href$=\".png\""),
          (Kind.pseudoClass, "focus")]) :=
  ⟨⟨by simp [Kind.rank], by decide, by decide, by decide, by decide,
      valid_chain_succeeds _ (by simp [Kind.rank]) (by decide) (by decide) (by decide)⟩,
    ⟨by decide,
      valid_chain_succeeds _ (by simp [Kind.rank]) (by decide) (by decide) (by decide)⟩⟩

/-- C3 as stated fails: on the value returned by `element('a')` the call
`id('b')` succeeds, so an element already appended does not make the id
constructor throw the duplicate error. -/
theorem element_then_id_accepted :
    cssSelectorBuilder.element "a" = Except.ok ⟨"a", 1, 0, 0, 1⟩ ∧
    (⟨"a", 1, 0, 0, 1⟩ : Selector).id "b" = Except.ok ⟨"a#b", 1, 1, 0, 2⟩ ∧
    (⟨"a", 1, 0, 0, 1⟩ : Selector).id "b" ≠
      Except.error SelectorError.DuplicateSingletonError :=
  ⟨rfl, rfl, by
    intro h
    have e : (⟨"a", 1, 0, 0, 1⟩ : Selector).id "b" = Except.ok ⟨"a#b", 1, 1, 0, 2⟩ := rfl
    rw [e] at h
    cases h⟩

/-- C3, amended: the singleton check is kept per kind. On a value reached from
the empty builder by a successful chain, the call of a kind among element, id
and pseudoElement throws the duplicate error exactly when a part of that same
kind was appended in the chain and the position of the value is at most the
rank of the kind, and it succeeds exactly when no part of that kind was
appended and the position is at most the rank, whichever of the other two
kinds were appended. -/
theorem duplicate_error_iff_same_kind (calls : List (Kind × String)) (v : Selector)
    (k : Kind) (x : String) (hs : k.isSingleton = true)
    (hreach : chain cssSelectorBuilder calls = Except.ok v) :
    (k.call v x = Except.error SelectorError.DuplicateSingletonError ↔
      (k ∈ calls.map Prod.fst ∧ v.position ≤ k.rank)) ∧
    ((∃ w, k.call v x = Except.ok w) ↔
      (k ∉ calls.map Prod.fst ∧ v.position ≤ k.rank)) := by
  have hflag : k.flag v > 0 ↔ k ∈ calls.map Prod.fst := by
    rw [flag_chain_iff k hs calls _ _ hreach]
    have h0 : ¬ k.flag cssSelectorBuilder > 0 := by
      cases k <;> simp [cssSelectorBuilder, Kind.flag]
    simp [h0]
  refine ⟨⟨fun h => ?_, fun h => ?_⟩, ⟨fun h => ?_, fun h => ?_⟩⟩
  · rcases call_cases k v x with ⟨_, e⟩ | ⟨hp, _, hf, _⟩ | ⟨_, _, e⟩
    · rw [e] at h; cases h
    · exact ⟨hflag.mp hf, not_lt.mp hp⟩
    · rw [e] at h; cases h
  · exact call_of_flag_pos k v x (not_lt.mpr h.2) hs (hflag.mpr h.1)
  · obtain ⟨w, hw⟩ := h
    obtain ⟨_, hp, hf⟩ := call_ok_inv hw
    exact ⟨fun hmem => hf hs (hflag.mpr hmem), not_lt.mp hp⟩
  · exact ⟨appended k v x,
      call_of_ok k v x (not_lt.mpr h.2) (fun _ hfl => h.1 (hflag.mp hfl))⟩

/-- C3, amended, at `element('a')`: the element flag is set and the id flag is
not, so a further `element('b')` throws the duplicate error and a further
`id('b')` succeeds. -/
theorem duplicate_error_iff_same_kind_witness :
    Kind.element.isSingleton = true ∧ Kind.id.isSingleton = true ∧
    chain cssSelectorBuilder [(Kind.element, "a")] = Except.ok ⟨"a", 1, 0, 0, 1⟩ ∧
    Kind.element ∈ [(Kind.element, "a")].map Prod.fst ∧
    Kind.id ∉ [(Kind.element, "a")].map Prod.fst ∧
    Kind.element.call ⟨"a", 1, 0, 0, 1⟩ "b" =
      Except.error SelectorError.DuplicateSingletonError ∧
    ∃ w, Kind.id.call ⟨"a", 1, 0, 0, 1⟩ "b" = Except.ok w :=
  ⟨rfl, rfl, rfl, by decide, by decide,
    (duplicate_error_iff_same_kind [(Kind.element, "a")] ⟨"a", 1, 0, 0, 1⟩
      Kind.element "b" rfl rfl).1.mpr ⟨by decide, by decide⟩,
    (duplicate_error_iff_same_kind [(Kind.element, "a")] ⟨"a", 1, 0, 0, 1⟩
      Kind.id "b" rfl rfl).2.mpr ⟨by decide, by decide⟩⟩

/-- C4: on a value reached from the empty builder by a successful chain of
part-constructor calls, the call of a kind among element, id and pseudoElement
that was appended anywhere in the chain throws an error and returns no
value. -/
theorem appended_singleton_again_fails (calls : List (Kind × String)) (v : Selector)
    (k : Kind) (x : String)
    (hk : k = Kind.element ∨ k = Kind.id ∨ k = Kind.pseudoElement)
    (hreach : chain cssSelectorBuilder calls = Except.ok v)
    (hmem : k ∈ calls.map Prod.fst) :
    (∃ e, k.call v x = Except.error e) ∧ ∀ w, k.call v x ≠ Except.ok w := by
  have hs : k.isSingleton = true := by
    rcases hk with rfl | rfl | rfl <;> rfl
  have hflag : k.flag v > 0 :=
    (flag_chain_iff k hs calls _ _ hreach).mpr (Or.inr hmem)
  rcases call_cases k v x with ⟨_, e⟩ | ⟨_, _, _, e⟩ | ⟨_, hf, _⟩
  · exact ⟨⟨_, e⟩, fun w h => by rw [e] at h; cases h⟩
  · exact ⟨⟨_, e⟩, fun w h => by rw [e] at h; cases h⟩
  · exact absurd hflag (hf hs)

/-- C4 at `id('a').class('b')`: the id is not the last part, and a further
`id('c')` throws. -/
theorem appended_singleton_again_fails_witness :
    (Kind.id = Kind.element ∨ Kind.id = Kind.id ∨ Kind.id = Kind.pseudoElement) ∧
    chain cssSelectorBuilder [(Kind.id, "a"), (Kind.«class», "b")]
      = Except.ok ⟨"#a.b", 0, 1, 0, 3⟩ ∧
    Kind.id ∈ [(Kind.id, "a"), (Kind.«class», "b")].map Prod.fst ∧
    ((∃ e, Kind.id.call ⟨"#a.b", 0, 1, 0, 3⟩ "c" = Except.error e) ∧
      ∀ w, Kind.id.call ⟨"#a.b", 0, 1, 0, 3⟩ "c" ≠ Except.ok w) :=
  ⟨Or.inr (Or.inl rfl), rfl, by decide,
    appended_singleton_again_fails [(Kind.id, "a"), (Kind.«class», "b")]
      ⟨"#a.b", 0, 1, 0, 3⟩ Kind.id "c" (Or.inr (Or.inl rfl)) rfl (by decide)⟩

/-! ## No mutation of the receiver -/

/-- A call of `addText` allocates exactly one object. -/
theorem Heap.addText_next (h : Heap) (this : Nat) (value : String) (mark : Int) :
    (h.addText this value mark).1.next = h.next + 1 := by
  unfold Heap.addText
  simp only [Heap.spread, Heap.assign]
  split
  · rfl
  · split_ifs <;> rfl

/-- A call of `addText` writes no object allocated before the call. -/
theorem Heap.addText_frame (h : Heap) (this : Nat) (value : String) (mark : Int)
    (a : Nat) (ha : a < h.next) :
    (h.addText this value mark).1.cells a = h.cells a := by
  have hne : a ≠ h.next := Nat.ne_of_lt ha
  unfold Heap.addText
  simp only [Heap.spread, Heap.assign]
  split
  · simp [hne]
  · split_ifs <;> simp [hne]

/-- The returned address is the fresh one. -/
theorem Heap.addText_fresh (h : Heap) (this : Nat) (value : String) (mark : Int)
    (r : Nat) (hr : (h.addText this value mark).2 = Except.ok r) : r = h.next := by
  unfold Heap.addText at hr
  simp only [Heap.spread, Heap.assign] at hr
  split at hr
  · cases hr
  · split_ifs at hr <;> (cases hr; rfl)

/-- On an allocated receiver the call on the store throws what the call on
the value of the receiver throws, or returns the address of an object equal
to what that call returns. -/
theorem Heap.addText_result (h : Heap) (this : Nat) (value : String) (mark : Int)
    (hthis : this < h.next) :
    (h.addText this value mark).2.map (fun r => (h.addText this value mark).1.cells r)
      = (h.cells this).addText value mark := by
  have hne : this ≠ h.next := Nat.ne_of_lt hthis
  unfold Heap.addText Selector.addText
  simp only [Heap.spread, Heap.assign, hne, if_false]
  cases hi : (h.cells this).isError mark with
  | error e => rfl
  | ok u =>
    cases u
    simp only []
    split_ifs <;> simp_all [Except.map]

/-- A successful call on the value of an allocated receiver returns, on the
store, the fresh address, and the object there is the appended copy. -/
theorem Heap.call_ok (k : Kind) (h : Heap) (this : Nat) (x : String)
    (hthis : this < h.next) (w : Selector) (hw : k.call (h.cells this) x = Except.ok w) :
    (Heap.call k h this x).2 = Except.ok h.next ∧
      (Heap.call k h this x).1.cells h.next = w := by
  have hres := Heap.addText_result h this (k.render x) k.rank hthis
  rw [← call_eq_addText, hw] at hres
  unfold Heap.call
  cases hr : (h.addText this (k.render x) k.rank).2 with
  | error e => rw [hr] at hres; cases hres
  | ok r =>
    have hfresh := Heap.addText_fresh h this (k.render x) k.rank r hr
    subst hfresh
    rw [hr] at hres
    injection hres with hres
    exact ⟨rfl, hres⟩

/-- C10: no part-constructor call writes its receiver. On a store where the
receiver is allocated, after a call of any kind with any value, whether it
returns or throws, the receiver (and every other object allocated before the
call) has the text, position and flags it had before. Hence, when the
position of a base is at most the rank of class, `base.class(a)` followed by
`base.class(b)` returns two distinct objects whose texts are the text of the
base followed by `.a` and by `.b`, and the base is as it was. -/
theorem call_keeps_receiver (h : Heap) (base : Nat) (hbase : base < h.next) :
    (∀ (k : Kind) (x : String) (o : Nat), o < h.next →
      (Heap.call k h base x).1.cells o = h.cells o) ∧
    ((h.cells base).position ≤ Kind.«class».rank → ∀ a b : String,
      ∃ ra rb, ra ≠ rb ∧
        (Heap.call Kind.«class» h base a).2 = Except.ok ra ∧
        (Heap.call Kind.«class» (Heap.call Kind.«class» h base a).1 base b).2
          = Except.ok rb ∧
        ((Heap.call Kind.«class» (Heap.call Kind.«class» h base a).1 base b).1.cells
            ra).stringify = (h.cells base).stringify ++ "." ++ a ∧
        ((Heap.call Kind.«class» (Heap.call Kind.«class» h base a).1 base b).1.cells
            rb).stringify = (h.cells base).stringify ++ "." ++ b ∧
        (Heap.call Kind.«class» (Heap.call Kind.«class» h base a).1 base b).1.cells base
          = h.cells base) := by
  have hframe : ∀ (g : Heap) (k : Kind) (x : String) (o : Nat), o < g.next →
      (Heap.call k g base x).1.cells o = g.cells o :=
    fun g k x o ho => Heap.addText_frame g base (k.render x) k.rank o ho
  refine ⟨hframe h, fun hpos a b => ?_⟩
  have hnext : (Heap.call Kind.«class» h base a).1.next = h.next + 1 :=
    Heap.addText_next h base _ _
  have hbase1 : base < (Heap.call Kind.«class» h base a).1.next := by
    rw [hnext]; exact Nat.lt_succ_of_lt hbase
  have hkeep : (Heap.call Kind.«class» h base a).1.cells base = h.cells base :=
    hframe h _ a base hbase
  have hpure : ∀ y : String, Kind.«class».call (h.cells base) y =
      Except.ok (appended Kind.«class» (h.cells base) y) :=
    fun y => call_of_ok _ _ y (not_lt.mpr hpos) (fun hs => by cases hs)
  obtain ⟨hra, hca⟩ := Heap.call_ok Kind.«class» h base a hbase _ (hpure a)
  obtain ⟨hrb, hcb⟩ := Heap.call_ok Kind.«class» (Heap.call Kind.«class» h base a).1
    base b hbase1 (appended Kind.«class» (h.cells base) b) (by rw [hkeep]; exact hpure b)
  refine ⟨h.next, (Heap.call Kind.«class» h base a).1.next, ?_, hra, hrb, ?_, ?_, ?_⟩
  · rw [hnext]; exact Nat.ne_of_lt (Nat.lt_succ_self _)
  · rw [hframe _ _ b h.next (by rw [hnext]; exact Nat.lt_succ_self _), hca]
    simp [appended, Selector.stringify, Kind.render, String.append_assoc]
  · rw [hcb]
    simp [appended, Selector.stringify, Kind.render, String.append_assoc]
  · rw [hframe _ _ b base hbase1, hkeep]

/-- C10 on the store of the loaded module, with `cssSelectorBuilder` itself as
the base: a throwing-free `pseudoElement('x')` leaves it as it was, and
`class('a')`, `class('b')` give two objects with texts `.a` and `.b`. -/
theorem call_keeps_receiver_witness :
    0 < initialHeap.next ∧
    (initialHeap.cells 0).position ≤ Kind.«class».rank ∧
    (Heap.call Kind.pseudoElement initialHeap 0 "x").1.cells 0 = initialHeap.cells 0 ∧
    ∃ ra rb, ra ≠ rb ∧
      (Heap.call Kind.«class» initialHeap 0 "a").2 = Except.ok ra ∧
      (Heap.call Kind.«class» (Heap.call Kind.«class» initialHeap 0 "a").1 0 "b").2
        = Except.ok rb ∧
      ((Heap.call Kind.«class» (Heap.call Kind.«class» initialHeap 0 "a").1 0 "b").1.cells
          ra).stringify = (initialHeap.cells 0).stringify ++ "." ++ "a" ∧
      ((Heap.call Kind.«class» (Heap.call Kind.«class» initialHeap 0 "a").1 0 "b").1.cells
          rb).stringify = (initialHeap.cells 0).stringify ++ "." ++ "b" ∧
      (Heap.call Kind.«class» (Heap.call Kind.«class» initialHeap 0 "a").1 0 "b").1.cells 0
        = initialHeap.cells 0 :=
  ⟨by decide, by decide,
    (call_keeps_receiver initialHeap 0 (by decide)).1 Kind.pseudoElement "x" 0 (by decide),
    (call_keeps_receiver initialHeap 0 (by decide)).2 (by decide) "a" "b"⟩

/-! ## The state carried by `combine` -/

/-- C11 as stated fails: `combine` called on the value returned by
`element('a')` returns a value with position `1` and the element flag set. -/
theorem combine_on_element_not_reset :
    cssSelectorBuilder.element "a" = Except.ok ⟨"a", 1, 0, 0, 1⟩ ∧
    ((⟨"a", 1, 0, 0, 1⟩ : Selector).combine cssSelectorBuilder "+"
        cssSelectorBuilder).position = 1 ∧
    ((⟨"a", 1, 0, 0, 1⟩ : Selector).combine cssSelectorBuilder "+"
        cssSelectorBuilder).elem = 1 :=
  ⟨rfl, rfl, rfl⟩

/-- C11, amended: the value returned by `combine` has the position and the
three flags of the receiver on which `combine` is called, whatever the
operands and the symbol; called on the empty `cssSelectorBuilder` it returns
position `0` and no flag set. -/
theorem combine_copies_receiver_state :
    (∀ (this left right : Selector) (symbol : String),
      (this.combine left symbol right).position = this.position ∧
      (this.combine left symbol right).elem = this.elem ∧
      (this.combine left symbol right).aidi = this.aidi ∧
      (this.combine left symbol right).pseudo = this.pseudo) ∧
    (∀ (left right : Selector) (symbol : String),
      (cssSelectorBuilder.combine left symbol right).position = 0 ∧
      (cssSelectorBuilder.combine left symbol right).elem = 0 ∧
      (cssSelectorBuilder.combine left symbol right).aidi = 0 ∧
      (cssSelectorBuilder.combine left symbol right).pseudo = 0) :=
  ⟨fun _ _ _ _ => ⟨rfl, rfl, rfl, rfl⟩, fun _ _ _ => ⟨rfl, rfl, rfl, rfl⟩⟩

/-- C12: `combine` reads of its operands only the text: two pairs of operands
with equal texts give, for the same receiver and symbol, values equal in
every field. -/
theorem combine_depends_on_text_only (this l₁ r₁ l₂ r₂ : Selector) (symbol : String)
    (hl : l₁.stringify = l₂.stringify) (hr : r₁.stringify = r₂.stringify) :
    this.combine l₁ symbol r₁ = this.combine l₂ symbol r₂ := by
  unfold Selector.stringify at hl hr
  unfold Selector.combine
  rw [hl, hr]

/-- C12 at operands with the text `a` and different positions and flags. -/
theorem combine_depends_on_text_only_witness :
    (⟨"a", 1, 0, 0, 1⟩ : Selector).stringify = (⟨"a", 0, 0, 0, 0⟩ : Selector).stringify ∧
    (⟨"b", 0, 1, 1, 6⟩ : Selector).stringify = (⟨"b", 0, 0, 0, 3⟩ : Selector).stringify ∧
    cssSelectorBuilder.combine ⟨"a", 1, 0, 0, 1⟩ ">" ⟨"b", 0, 1, 1, 6⟩ =
      cssSelectorBuilder.combine ⟨"a", 0, 0, 0, 0⟩ ">" ⟨"b", 0, 0, 0, 3⟩ :=
  ⟨rfl, rfl, combine_depends_on_text_only cssSelectorBuilder ⟨"a", 1, 0, 0, 1⟩
    ⟨"b", 0, 1, 1, 6⟩ ⟨"a", 0, 0, 0, 0⟩ ⟨"b", 0, 0, 0, 3⟩ ">" rfl rfl⟩

/-- C19: `combine` is associative on the text: nesting on the left and
nesting on the right both stringify to the three texts and two symbols joined
by single spaces. -/
theorem combine_assoc_stringify (p q r s a b c : Selector) (x y : String) :
    (p.combine (q.combine a x b) y c).stringify =
      (r.combine a x (s.combine b y c)).stringify ∧
    (r.combine a x (s.combine b y c)).stringify =
      a.stringify ++ " " ++ x ++ " " ++ b.stringify ++ " " ++ y ++ " " ++ c.stringify := by
  simp [Selector.combine, Selector.stringify, String.append_assoc]

/-! ## One successful call -/

/-- C14: a successful part-constructor call of kind `k` with value `x` on `v`
returns a value whose text is the text of `v` followed by the rendered part,
whose position is the rank of `k`, whose flag for `k` is set when `k` is
element, id or pseudoElement, and whose other flags are those of `v`. -/
theorem successful_call_postcondition (v w : Selector) (k : Kind) (x : String)
    (h : k.call v x = Except.ok w) :
    w.stringify = v.stringify ++ k.render x ∧
    w.position = k.rank ∧
    (k.isSingleton = true → k.flag w = 1) ∧
    (∀ j : Kind, j ≠ k → j.flag w = j.flag v) ∧
    (k.isSingleton = false → w.elem = v.elem ∧ w.aidi = v.aidi ∧ w.pseudo = v.pseudo) := by
  obtain ⟨rfl, _, _⟩ := call_ok_inv h
  refine ⟨rfl, rfl, flag_appended_self k v x, fun j hj => flag_appended_of_ne j k v x hj, ?_⟩
  intro hs
  cases k <;> simp_all [Kind.isSingleton, appended]

/-- C14 at `element('a').id('b')`: the id flag is set and the element flag
kept. -/
theorem successful_call_postcondition_witness :
    Kind.id.call ⟨"a", 1, 0, 0, 1⟩ "b" = Except.ok ⟨"a#b", 1, 1, 0, 2⟩ ∧
    ((⟨"a#b", 1, 1, 0, 2⟩ : Selector).stringify =
        (⟨"a", 1, 0, 0, 1⟩ : Selector).stringify ++ Kind.id.render "b" ∧
      (⟨"a#b", 1, 1, 0, 2⟩ : Selector).position = Kind.id.rank ∧
      (Kind.id.isSingleton = true → Kind.id.flag ⟨"a#b", 1, 1, 0, 2⟩ = 1) ∧
      (∀ j : Kind, j ≠ Kind.id →
        j.flag ⟨"a#b", 1, 1, 0, 2⟩ = j.flag ⟨"a", 1, 0, 0, 1⟩) ∧
      (Kind.id.isSingleton = false →
        (⟨"a#b", 1, 1, 0, 2⟩ : Selector).elem = (⟨"a", 1, 0, 0, 1⟩ : Selector).elem ∧
        (⟨"a#b", 1, 1, 0, 2⟩ : Selector).aidi = (⟨"a", 1, 0, 0, 1⟩ : Selector).aidi ∧
        (⟨"a#b", 1, 1, 0, 2⟩ : Selector).pseudo = (⟨"a", 1, 0, 0, 1⟩ : Selector).pseudo)) :=
  ⟨rfl, successful_call_postcondition ⟨"a", 1, 0, 0, 1⟩ ⟨"a#b", 1, 1, 0, 2⟩ Kind.id "b" rfl⟩

/-- C16: the order check comes before the singleton check. For a kind among
element, id and pseudoElement, a call below the position of the receiver
throws the order error even when the flag of the kind is set, and the
duplicate error is thrown exactly when the rank is at least the position and
the flag is set. -/
theorem order_check_precedes_singleton_check (v : Selector) (k : Kind) (x : String)
    (hk : k = Kind.element ∨ k = Kind.id ∨ k = Kind.pseudoElement) :
    (k.rank < v.position → k.flag v > 0 →
      k.call v x = Except.error SelectorError.OrderError ∧
      k.call v x ≠ Except.error SelectorError.DuplicateSingletonError) ∧
    (k.call v x = Except.error SelectorError.DuplicateSingletonError ↔
      (k.rank ≥ v.position ∧ k.flag v > 0)) := by
  have hs : k.isSingleton = true := by
    rcases hk with rfl | rfl | rfl <;> rfl
  refine ⟨fun hlt _ => ?_, ⟨fun h => ?_, fun h => ?_⟩⟩
  · have e := call_of_position_gt k v x hlt
    exact ⟨e, fun h => by rw [e] at h; cases h⟩
  · rcases call_cases k v x with ⟨_, e⟩ | ⟨hp, _, hf, _⟩ | ⟨_, _, e⟩
    · rw [e] at h; cases h
    · exact ⟨not_lt.mp hp, hf⟩
    · rw [e] at h; cases h
  · exact call_of_flag_pos k v x (not_lt.mpr h.1) hs h.2

/-- C16 at `id('a').class('b')`, position `3`, and a further `id('c')`: the id
flag is set and the order error is thrown. -/
theorem order_check_precedes_singleton_check_witness :
    (Kind.id = Kind.element ∨ Kind.id = Kind.id ∨ Kind.id = Kind.pseudoElement) ∧
    chain cssSelectorBuilder [(Kind.id, "a"), (Kind.«class», "b")]
      = Except.ok ⟨"#a.b", 0, 1, 0, 3⟩ ∧
    Kind.id.rank < (⟨"#a.b", 0, 1, 0, 3⟩ : Selector).position ∧
    Kind.id.flag ⟨"#a.b", 0, 1, 0, 3⟩ > 0 ∧
    (Kind.id.call ⟨"#a.b", 0, 1, 0, 3⟩ "c" = Except.error SelectorError.OrderError ∧
      Kind.id.call ⟨"#a.b", 0, 1, 0, 3⟩ "c" ≠
        Except.error SelectorError.DuplicateSingletonError) :=
  ⟨Or.inr (Or.inl rfl), rfl, by decide, by decide,
    (order_check_precedes_singleton_check ⟨"#a.b", 0, 1, 0, 3⟩ Kind.id "c"
      (Or.inr (Or.inl rfl))).1 (by decide) (by decide)⟩

/-! ## Values derived from the empty builder -/

/-- Once a pseudo-element has been appended the position is `6` and the
pseudo flag is set, whatever was derived afterwards. -/
theorem derives_pseudoElement {ks : List Kind} {v : Selector} (h : Derives ks v) :
    Kind.pseudoElement ∈ ks → v.position = 6 ∧ v.pseudo > 0 := by
  induction h with
  | empty => intro hmem; cases hmem
  | part k x _ hcall ih =>
    intro hmem
    obtain ⟨rfl, hp, _⟩ := call_ok_inv hcall
    by_cases hk : k = Kind.pseudoElement
    · subst hk
      simp [appended, Kind.rank]
    · have hold := ih (by
        rcases List.mem_cons.mp hmem with h | h
        · exact absurd h.symm hk
        · exact h)
      exfalso
      rw [hold.1] at hp
      cases k <;> simp_all [Kind.rank]
  | combine left symbol right _ ih =>
    intro hmem
    exact ih hmem

/-- A value at position `6` with the pseudo flag set accepts no part. -/
theorem closed_of_position_six (v : Selector) (hpos : v.position = 6)
    (hflag : v.pseudo > 0) :
    (∀ (k : Kind) (y : String), k ≠ Kind.pseudoElement →
      k.call v y = Except.error SelectorError.OrderError) ∧
    (∀ y : String, v.pseudoElement y =
      Except.error SelectorError.DuplicateSingletonError) := by
  constructor
  · intro k y hk
    apply call_of_position_gt
    rw [hpos]
    cases k <;> simp_all [Kind.rank]
  · intro y
    exact call_of_flag_pos Kind.pseudoElement v y (by rw [hpos]; simp [Kind.rank]) rfl hflag

/-- C17: a pseudo-element closes the selector. On a value returned by a
successful `pseudoElement` call, and on a value derived from the empty builder
after a pseudo-element was appended, the calls of element, id, class, attr and
pseudoClass throw the order error and the call of pseudoElement throws the
duplicate error. -/
theorem pseudoElement_closes_selector (v : Selector)
    (h : (∃ (u : Selector) (x : String), u.pseudoElement x = Except.ok v) ∨
      (∃ ks, Derives ks v ∧ Kind.pseudoElement ∈ ks)) :
    (∀ (k : Kind) (y : String), k ≠ Kind.pseudoElement →
      k.call v y = Except.error SelectorError.OrderError) ∧
    (∀ y : String, v.pseudoElement y =
      Except.error SelectorError.DuplicateSingletonError) := by
  have hstate : v.position = 6 ∧ v.pseudo > 0 := by
    rcases h with ⟨u, x, hcall⟩ | ⟨ks, hd, hmem⟩
    · have hcall' : Kind.pseudoElement.call u x = Except.ok v := hcall
      obtain ⟨rfl, _, _⟩ := call_ok_inv hcall'
      simp [appended, Kind.rank]
    · exact derives_pseudoElement hd hmem
  exact closed_of_position_six v hstate.1 hstate.2

/-- C17 at `pseudoElement('after')` called on the empty builder. -/
theorem pseudoElement_closes_selector_witness :
    cssSelectorBuilder.pseudoElement "after" = Except.ok ⟨"::after", 0, 0, 1, 6⟩ ∧
    Derives [Kind.pseudoElement] ⟨"::after", 0, 0, 1, 6⟩ ∧
    ((∀ (k : Kind) (y : String), k ≠ Kind.pseudoElement →
      k.call ⟨"::after", 0, 0, 1, 6⟩ y = Except.error SelectorError.OrderError) ∧
    (∀ y : String, (⟨"::after", 0, 0, 1, 6⟩ : Selector).pseudoElement y =
      Except.error SelectorError.DuplicateSingletonError)) :=
  ⟨rfl, Derives.part Kind.pseudoElement "after" Derives.empty rfl,
    pseudoElement_closes_selector ⟨"::after", 0, 0, 1, 6⟩
      (Or.inl ⟨cssSelectorBuilder, "after", rfl⟩)⟩

/-- C18: every value derived from the empty builder by successful
part-constructor calls and by `combine` calls with any operands has its
position between `0` and `6`, each flag `0` or `1`, and the element flag set
only from position `1`, the id flag only from position `2`, the pseudo flag
only at position `6`. -/
theorem derived_state_invariant (ks : List Kind) (v : Selector) (h : Derives ks v) :
    (0 ≤ v.position ∧ v.position ≤ 6) ∧
    (v.elem = 0 ∨ v.elem = 1) ∧ (v.aidi = 0 ∨ v.aidi = 1) ∧
    (v.pseudo = 0 ∨ v.pseudo = 1) ∧
    (v.elem = 1 → v.position ≥ 1) ∧ (v.aidi = 1 → v.position ≥ 2) ∧
    (v.pseudo = 1 → v.position = 6) := by
  induction h with
  | empty => simp [cssSelectorBuilder]
  | part k x _ hcall ih =>
    obtain ⟨rfl, hp, _⟩ := call_ok_inv hcall
    obtain ⟨⟨h0, h6⟩, he, hi, hps, hep, hip, hpp⟩ := ih
    cases k <;> simp only [appended, Kind.rank] at hp ⊢ <;>
      simp only [reduceCtorEq, if_true, if_false] <;>
      refine ⟨⟨by omega, by omega⟩, ?_, ?_, ?_, ?_, ?_, ?_⟩ <;>
      first
        | exact he | exact hi | exact hps | exact Or.inr rfl | exact Or.inr trivial
        | (intro hh
           first
             | trivial
             | omega)
  | combine left symbol right _ ih => exact ih

/-- C18 at `element('a')` followed by a `combine` called on it. -/
theorem derived_state_invariant_witness :
    Derives [Kind.element]
      ((⟨"a", 1, 0, 0, 1⟩ : Selector).combine cssSelectorBuilder ">" cssSelectorBuilder) ∧
    ((0 : Int) ≤ 1 ∧ (1 : Int) ≤ 6) ∧
    (((⟨"a", 1, 0, 0, 1⟩ : Selector).combine cssSelectorBuilder ">"
        cssSelectorBuilder).elem = 1 →
      ((⟨"a", 1, 0, 0, 1⟩ : Selector).combine cssSelectorBuilder ">"
        cssSelectorBuilder).position ≥ 1) :=
  ⟨Derives.combine _ _ _ (Derives.part Kind.element "a" Derives.empty rfl),
    (derived_state_invariant _ _
      (Derives.combine cssSelectorBuilder ">" cssSelectorBuilder
        (Derives.part Kind.element "a" Derives.empty rfl))).1,
    (derived_state_invariant _ _
      (Derives.combine cssSelectorBuilder ">" cssSelectorBuilder
        (Derives.part Kind.element "a" Derives.empty rfl))).2.2.2.2.1⟩

/-! ## Exact characterisation of the accepted chains -/

/-- A chain over an appended list runs the first part, then the second. -/
theorem chain_append (l₁ l₂ : List (Kind × String)) :
    ∀ u : Selector, chain u (l₁ ++ l₂) =
      match chain u l₁ with
      | Except.error e => Except.error e
      | Except.ok w => chain w l₂ := by
  induction l₁ with
  | nil => intro u; rfl
  | cons c rest ih =>
    obtain ⟨k, x⟩ := c
    intro u
    simp only [List.cons_append, chain]
    cases k.call u x with
    | error e => rfl
    | ok w => exact ih w

/-- A chain that succeeds has non-decreasing marks, all at or above the
position of the receiver, and calls each singleton kind at most once and only
when its flag is not set on the receiver. -/
theorem valid_of_chain_ok (calls : List (Kind × String)) :
    ∀ u v : Selector, chain u calls = Except.ok v →
      (calls.map (fun c => c.1.rank)).Pairwise (· ≤ ·) ∧
      (∀ c ∈ calls, u.position ≤ c.1.rank) ∧
      (∀ k : Kind, k.isSingleton = true →
        (calls.map Prod.fst).count k ≤ 1 ∧
        (k.flag u > 0 → k ∉ calls.map Prod.fst)) := by
  induction calls with
  | nil =>
    intro u v _
    simp
  | cons c rest ih =>
    obtain ⟨j, x⟩ := c
    intro u v h
    simp only [chain] at h
    cases hc : j.call u x with
    | error e => rw [hc] at h; cases h
    | ok w =>
      rw [hc] at h
      obtain ⟨rfl, hp, hf⟩ := call_ok_inv hc
      obtain ⟨ihp, ihpos, ihflag⟩ := ih _ _ h
      have hju : u.position ≤ j.rank := not_lt.mp hp
      refine ⟨?_, ?_, ?_⟩
      · rw [List.map_cons, List.pairwise_cons]
        refine ⟨fun r hr => ?_, ihp⟩
        obtain ⟨c, hcmem, rfl⟩ := List.mem_map.mp hr
        exact ihpos c hcmem
      · intro c hcmem
        rcases List.mem_cons.mp hcmem with rfl | hcrest
        · exact hju
        · exact le_trans hju (ihpos c hcrest)
      · intro k hs
        by_cases hkj : k = j
        · subst hkj
          have hnot : k ∉ rest.map Prod.fst :=
            (ihflag k hs).2 (by rw [flag_appended_self k u x hs]; decide)
          refine ⟨?_, fun hfl => absurd hfl (hf hs)⟩
          rw [List.map_cons, List.count_cons_self, List.count_eq_zero_of_not_mem hnot]
        · refine ⟨?_, fun hfl hmem => ?_⟩
          · have hne : k ≠ (j, x).1 := hkj
            rw [List.map_cons, List.count_cons_of_ne hne]
            exact (ihflag k hs).1
          · rcases List.mem_cons.mp hmem with heq | hrest
            · exact hkj heq
            · exact (ihflag k hs).2 (by rw [flag_appended_of_ne k j u x hkj]; exact hfl) hrest

/-- From the empty builder a well-ordered chain succeeds. -/
theorem chain_ok_of_wellOrdered (calls : List (Kind × String)) (h : WellOrdered calls) :
    ∃ v, chain cssSelectorBuilder calls = Except.ok v := by
  obtain ⟨hrank, helem, hid, hpseudo⟩ := h
  obtain ⟨w, hw, _⟩ := chain_ok_of_valid calls cssSelectorBuilder
    (List.chain'_iff_pairwise.mp hrank)
    (fun c _ => by cases c.1 <;> simp [cssSelectorBuilder, Kind.rank])
    (fun k _ _ => by cases k <;> simp [cssSelectorBuilder, Kind.flag])
    (fun k hs => by cases k <;> simp_all [Kind.isSingleton])
  exact ⟨w, hw⟩

/-- From the empty builder only a well-ordered chain succeeds. -/
theorem wellOrdered_of_chain_ok (calls : List (Kind × String)) (v : Selector)
    (h : chain cssSelectorBuilder calls = Except.ok v) : WellOrdered calls := by
  obtain ⟨hp, _, hflag⟩ := valid_of_chain_ok calls _ _ h
  exact ⟨List.chain'_iff_pairwise.mpr hp, (hflag Kind.element rfl).1,
    (hflag Kind.id rfl).1, (hflag Kind.pseudoElement rfl).1⟩

/-- C15: from the empty builder all calls of a chain succeed if and only if
the ranks are non-decreasing and each of element, id and pseudoElement occurs
at most once; and when a call is the first to break the condition, the calls
before it succeed, that call throws, and its error is the outcome of the whole
chain. -/
theorem chain_ok_iff_wellOrdered :
    (∀ calls : List (Kind × String),
      (∃ v, chain cssSelectorBuilder calls = Except.ok v) ↔ WellOrdered calls) ∧
    (∀ (pre : List (Kind × String)) (c : Kind × String) (post : List (Kind × String)),
      WellOrdered pre → ¬ WellOrdered (pre ++ [c]) →
      ∃ v e, chain cssSelectorBuilder pre = Except.ok v ∧
        c.1.call v c.2 = Except.error e ∧
        chain cssSelectorBuilder (pre ++ c :: post) = Except.error e) := by
  refine ⟨fun calls => ⟨fun ⟨v, hv⟩ => wellOrdered_of_chain_ok calls v hv,
    chain_ok_of_wellOrdered calls⟩, fun pre c post hpre hbad => ?_⟩
  obtain ⟨v, hv⟩ := chain_ok_of_wellOrdered pre hpre
  obtain ⟨k, x⟩ := c
  cases hc : k.call v x with
  | ok w =>
    exfalso
    apply hbad
    apply wellOrdered_of_chain_ok (pre ++ [(k, x)]) w
    rw [chain_append, hv]
    simp only [chain, hc]
  | error e =>
    refine ⟨v, e, hv, hc, ?_⟩
    rw [chain_append, hv]
    simp only [chain, hc]

/-- C15 at `id('a').element('b').class('c')`: `element('b')` is the first call
to break the order; `id('a')` succeeds and the order error of `element('b')`
is the outcome of the chain. -/
theorem chain_ok_iff_wellOrdered_witness :
    WellOrdered [(Kind.id, "a")] ∧
    ¬ WellOrdered ([(Kind.id, "a")] ++ [(Kind.element, "b")]) ∧
    ∃ v e, chain cssSelectorBuilder [(Kind.id, "a")] = Except.ok v ∧
      (Kind.element, "b").1.call v (Kind.element, "b").2 = Except.error e ∧
      chain cssSelectorBuilder ([(Kind.id, "a")] ++ (Kind.element, "b") :: [(Kind.«class», "c")])
        = Except.error e :=
  ⟨by simp [WellOrdered, Kind.rank], by simp [WellOrdered, Kind.rank],
    chain_ok_iff_wellOrdered.2 [(Kind.id, "a")] (Kind.element, "b") [(Kind.«class», "c")]
      (by simp [WellOrdered, Kind.rank]) (by simp [WellOrdered, Kind.rank])⟩

/-! ## Rectangle -/

/-- A magnitude below `2 ^ n` has at most `n` binary digits. -/
theorem bitLengthAux_le (fuel : Nat) : ∀ a n : Nat, a < 2 ^ n → bitLengthAux fuel a ≤ n := by
  induction fuel with
  | zero => intro a n _; simp [bitLengthAux]
  | succ fuel ih =>
    intro a n ha
    unfold bitLengthAux
    split_ifs with h0
    · exact Nat.zero_le _
    · cases n with
      | zero => simp at ha; exact absurd ha h0
      | succ m =>
        have hhalf : a / 2 < 2 ^ m := by
          rw [Nat.pow_succ] at ha
          omega
        exact Nat.succ_le_succ (ih (a / 2) m hhalf)

/-- With enough fuel the digits counted cover the magnitude. -/
theorem lt_two_pow_bitLengthAux (fuel : Nat) :
    ∀ a : Nat, a ≤ fuel → a < 2 ^ bitLengthAux fuel a := by
  induction fuel with
  | zero =>
    intro a ha
    have h0 : a = 0 := Nat.le_zero.mp ha
    subst h0
    simp [bitLengthAux]
  | succ fuel ih =>
    intro a ha
    unfold bitLengthAux
    split_ifs with h0
    · subst h0; simp
    · have hhalf : a / 2 ≤ fuel := by omega
      have hrec := ih (a / 2) hhalf
      rw [Nat.pow_succ]
      omega

/-- A magnitude below `2 ^ n` has a bit length of at most `n`. -/
theorem bitLength_le_of_lt (a n : Nat) (h : a < 2 ^ n) : bitLength a ≤ n :=
  bitLengthAux_le a a n h

/-- A magnitude is below two to its bit length. -/
theorem lt_two_pow_bitLength (a : Nat) : a < 2 ^ bitLength a :=
  lt_two_pow_bitLengthAux a a (Nat.le_refl a)

/-- A magnitude of bit length at most `n` is below `2 ^ n`. -/
theorem lt_of_bitLength_le (a n : Nat) (h : bitLength a ≤ n) : a < 2 ^ n :=
  Nat.lt_of_lt_of_le (lt_two_pow_bitLength a) (Nat.pow_le_pow_right (by decide) h)

/-- A magnitude reaches two to its bit length less one. -/
theorem two_pow_le_of_bitLength (a b : Nat) (h : bitLength a = b + 1) : 2 ^ b ≤ a := by
  by_contra hlt
  have := bitLength_le_of_lt a b (Nat.lt_of_not_le hlt)
  omega

/-- A power of two at most a magnitude below `2 ^ k` has an exponent below
`k`. -/
theorem exponent_lt_of_pow_le (x t k : Nat) (hx : x < 2 ^ k) (ht : 2 ^ t ≤ x) : t < k := by
  by_contra hcon
  exact Nat.not_le_of_lt hx
    (Nat.le_trans (Nat.pow_le_pow_right (by decide) (Nat.le_of_not_lt hcon)) ht)

/-- Rounding changes nothing when the digits to drop are all zero. -/
theorem roundMagnitude_of_dvd (a : Nat) (hd : 2 ^ (bitLength a - 53) ∣ a) :
    roundMagnitude a = a := by
  unfold roundMagnitude
  simp only []
  have hr : a % 2 ^ (bitLength a - 53) = 0 := Nat.mod_eq_zero_of_dvd hd
  have hhalf : 0 < 2 ^ (bitLength a - 53 - 1) := Nat.two_pow_pos _
  have hc : ¬ (a % 2 ^ (bitLength a - 53) > 2 ^ (bitLength a - 53 - 1) ∨
      (a % 2 ^ (bitLength a - 53) = 2 ^ (bitLength a - 53 - 1) ∧
        a / 2 ^ (bitLength a - 53) % 2 = 1)) := by
    rw [hr]
    omega
  rw [if_neg hc]
  exact Nat.div_mul_cancel hd

/-- A rounded magnitude that is not an infinity is a significand below
`2 ^ 53` times a power of two up to `2 ^ 971`. -/
theorem roundMagnitude_isBinary64 (a : Nat) (hb : ¬ bitLength a ≤ 53)
    (hfin : bitLength (roundMagnitude a) ≤ 1024) :
    ∃ m e : Nat, m < 2 ^ 53 ∧ e ≤ 971 ∧ roundMagnitude a = m * 2 ^ e := by
  obtain ⟨s, hs⟩ : ∃ s, bitLength a = s + 53 := ⟨bitLength a - 53, by omega⟩
  have hsub : bitLength a - 53 = s := by omega
  have hpos : 0 < 2 ^ s := Nat.two_pow_pos _
  have hlt : a < 2 ^ 53 * 2 ^ s := by
    have := lt_two_pow_bitLength a
    rw [hs, Nat.pow_add, Nat.mul_comm] at this
    exact this
  have hge : 2 ^ 52 * 2 ^ s ≤ a := by
    have := two_pow_le_of_bitLength a (s + 52) (by omega)
    rw [Nat.pow_add, Nat.mul_comm] at this
    exact this
  have hq_lt : a / 2 ^ s < 2 ^ 53 := Nat.div_lt_of_lt_mul (by rw [Nat.mul_comm]; exact hlt)
  have hq_ge : 2 ^ 52 ≤ a / 2 ^ s := (Nat.le_div_iff_mul_le hpos).mpr hge
  have hR := lt_of_bitLength_le _ _ hfin
  -- the rounded significand is the quotient or its successor
  have hform : ∃ q' : Nat, 2 ^ 52 ≤ q' ∧ q' ≤ 2 ^ 53 ∧ roundMagnitude a = q' * 2 ^ s := by
    unfold roundMagnitude
    simp only [hsub]
    split_ifs
    · exact ⟨a / 2 ^ s + 1, by omega, by omega, rfl⟩
    · exact ⟨a / 2 ^ s, hq_ge, by omega, rfl⟩
  obtain ⟨q', hq52, hq53, hq⟩ := hform
  rw [hq] at hR ⊢
  have hbound : ∀ t : Nat, 2 ^ t ≤ q' * 2 ^ s → t < 1024 :=
    fun t ht => exponent_lt_of_pow_le _ t 1024 hR ht
  by_cases htop : q' = 2 ^ 53
  · refine ⟨2 ^ 52, s + 1, by norm_num, ?_, ?_⟩
    · have := hbound (53 + s) (by rw [Nat.pow_add, htop])
      omega
    · rw [htop, Nat.pow_succ]
      ring
  · refine ⟨q', s, by omega, ?_, rfl⟩
    have := hbound (52 + s) (by
      rw [Nat.pow_add]
      exact Nat.mul_le_mul_right _ hq52)
    omega

/-- A binary64 value is rounded to itself. -/
theorem roundNumber_of_isBinary64 (n : Int) (h : IsBinary64 n) : roundNumber n = some n := by
  obtain ⟨m, e, hm, he, ha⟩ := h
  unfold roundNumber
  by_cases hb : bitLength n.natAbs ≤ 53
  · rw [if_pos hb]
  · rw [if_neg hb]
    have hpos : 0 < 2 ^ e := Nat.two_pow_pos _
    have hlt : n.natAbs < 2 ^ (53 + e) := by
      rw [ha, Nat.pow_add]
      exact Nat.mul_lt_mul_of_pos_right hm hpos
    have hbl : bitLength n.natAbs ≤ 53 + e := bitLength_le_of_lt _ _ hlt
    have hle : bitLength n.natAbs - 53 ≤ e := by omega
    have hd : 2 ^ (bitLength n.natAbs - 53) ∣ n.natAbs := by
      have hmul : 2 ^ (bitLength n.natAbs - 53) ∣ m * 2 ^ e :=
        Dvd.dvd.mul_left (pow_dvd_pow 2 hle) m
      rw [← ha] at hmul
      exact hmul
    rw [roundMagnitude_of_dvd _ hd]
    have hfin : ¬ bitLength n.natAbs > 1024 := by omega
    rw [if_neg hfin]
    split_ifs with hneg
    · congr 1
      omega
    · congr 1
      omega

/-- What an integer is rounded to is a binary64 value. -/
theorem isBinary64_of_roundNumber (n r : Int) (h : roundNumber n = some r) :
    IsBinary64 r := by
  unfold roundNumber at h
  split_ifs at h with hb hover hneg
  · injection h with h
    subst h
    exact ⟨n.natAbs, 0, lt_of_bitLength_le _ _ hb, Nat.zero_le _, (Nat.mul_one _).symm⟩
  · injection h with h
    subst h
    obtain ⟨m, e, hm, he, hr⟩ := roundMagnitude_isBinary64 _ hb (by omega)
    exact ⟨m, e, hm, he, by rw [Int.natAbs_neg, Int.natAbs_ofNat, hr]⟩
  · injection h with h
    subst h
    obtain ⟨m, e, hm, he, hr⟩ := roundMagnitude_isBinary64 _ hb (by omega)
    exact ⟨m, e, hm, he, by rw [Int.natAbs_ofNat, hr]⟩

/-- The product of two `Number`s, when it is not an infinity, is a `Number`. -/
theorem mulNumber_isBinary64 (x y : Number) (r : Int) (h : mulNumber x y = some r) :
    IsBinary64 r :=
  isBinary64_of_roundNumber _ r h

/-- C13 as stated fails: `new Rectangle(134217729, 134217729).getArea()`
returns `18014398777917440`, the binary64 value nearest to the product
`18014398777917441`. -/
theorem rectangle_area_rounded :
    (Rectangle.mk (Number.ofSafe 134217729 (by decide))
      (Number.ofSafe 134217729 (by decide))).getArea = some 18014398777917440 ∧
    (Rectangle.mk (Number.ofSafe 134217729 (by decide))
      (Number.ofSafe 134217729 (by decide))).getArea ≠ some (134217729 * 134217729) := by
  set_option maxRecDepth 100000 in decide

/-- C13, amended: for all integers `w` and `h` that are `Number`s, the object
`new Rectangle(w, h)` has width `w` and height `h`, and its `getArea()`
returns `w * h` if and only if the product `w * h` is itself a binary64
value. -/
theorem rectangle_area (w h : Number) :
    (Rectangle.mk w h).width = w ∧ (Rectangle.mk w h).height = h ∧
    ((Rectangle.mk w h).getArea = some (w.val * h.val) ↔ IsBinary64 (w.val * h.val)) :=
  ⟨rfl, rfl, fun hr => isBinary64_of_roundNumber _ _ hr,
    fun hb => roundNumber_of_isBinary64 _ hb⟩

/-- C13, amended, at `new Rectangle(10, 20)`: the product `200` is a binary64
value and the area is `200`. -/
theorem rectangle_area_witness :
    IsBinary64 ((Number.ofSafe 10 (by decide)).val * (Number.ofSafe 20 (by decide)).val) ∧
    (Rectangle.mk (Number.ofSafe 10 (by decide)) (Number.ofSafe 20 (by decide))).getArea =
      some ((Number.ofSafe 10 (by decide)).val * (Number.ofSafe 20 (by decide)).val) ∧
    (Number.ofSafe 10 (by decide)).val * (Number.ofSafe 20 (by decide)).val = 200 :=
  ⟨⟨200, 0, by decide, by decide, by decide⟩,
    (rectangle_area (Number.ofSafe 10 (by decide)) (Number.ofSafe 20 (by decide))).2.2.mpr
      ⟨200, 0, by decide, by decide, by decide⟩,
    by decide⟩
